import Mathlib

/-!
Shallow embedding of `src/latex.py` (a Qiskit-derived LaTeX formatter for
complex scalars, vectors and matrices).

Reals are modelled by `ℚ`.  Every floating-point constant occurring in the
source (`1/math.sqrt(2)`, `1/math.sqrt(3)`, `math.sqrt(2/3)`,
`math.sqrt(3/4)`, `1/math.sqrt(8)`) is embedded as the exact rational value
of the IEEE-754 double computed by the Python expression.  All arithmetic
the traced executions perform on these values (`abs`, division of a number
by itself, `x mod 1`, comparisons against tolerances of the order `1e-5`)
is exact or has rounding error around `1e-16`, far below every tolerance
the code compares against, so the rational model decides every branch the
way the floating-point program does on the inputs considered here.

Python-specific operations are embedded explicitly:
  * `np.isclose(a, b)`  with default `rtol = 1e-5`, `atol = 1e-8` is
    `|a - b| ≤ atol + rtol * |b|`;
  * `np.mod(val, 1)` is `val - ⌊val⌋`;
  * `np.round` rounds half to even;
  * `Fraction(val).limit_denominator()` is CPython's continued-fraction
    algorithm with `max_denominator = 1000000`;
  * `"{:.{}f}".format(val, precision)` is fixed-point rendering with
    round-half-to-even, keeping the sign of the value;
  * the string slice `s[:-n]` is `pyDropLast s n` (all but the last `n`
    characters, empty when the string is shorter).
-/

/-- `np.isclose(a, b)` with the default tolerances `rtol = 1e-5`,
`atol = 1e-8`: `|a - b| <= atol + rtol * |b|`. -/
def isclose (a b : ℚ) : Prop :=
  |a - b| ≤ 1 / 100000000 + |b| / 100000

instance decIsclose (a b : ℚ) : Decidable (isclose a b) :=
  inferInstanceAs (Decidable (_ ≤ _))

/-- Floor of a rational as an integer (`num.fdiv den`, the denominator being
positive). -/
def ratFloor (q : ℚ) : ℤ :=
  Int.fdiv q.num q.den

/-- `np.mod(val, 1)`: the fractional part `val - ⌊val⌋`, always in `[0, 1)`. -/
def pyMod1 (q : ℚ) : ℚ :=
  q - (ratFloor q : ℚ)

/-- `np.round` to an integer: round half to even. -/
def npRound (q : ℚ) : ℤ :=
  let f := ratFloor q
  let r := q - (f : ℚ)
  if r < 1 / 2 then f
  else if 1 / 2 < r then f + 1
  else if f % 2 = 0 then f else f + 1

/-- Loop of CPython's `Fraction.limit_denominator`: walk the continued
fraction of `n / d`, keeping the last two convergents `p0/q0`, `p1/q1`,
stopping when the next convergent's denominator would exceed `maxd`.
The fuel bounds the number of Euclidean steps; the caller supplies the
denominator, which is a strict upper bound on the number of steps taken. -/
def ldAux : ℕ → ℤ → ℤ → ℤ → ℤ → ℤ → ℤ → ℤ → ℤ × ℤ × ℤ × ℤ
  | 0, p0, q0, p1, q1, _, _, _ => (p0, q0, p1, q1)
  | fuel + 1, p0, q0, p1, q1, n, d, maxd =>
    let a := Int.fdiv n d
    let q2 := q0 + a * q1
    if maxd < q2 then (p0, q0, p1, q1)
    else ldAux fuel p1 q1 (p0 + a * p1) q2 d (n - a * d) maxd

/-- CPython's `Fraction(val).limit_denominator(1000000)`: the closest
rational with denominator at most `maxd`, ties resolved toward the upper
convergent exactly as in the library source. -/
def limit_denominator (x : ℚ) (maxd : ℕ) : ℚ :=
  if x.den ≤ maxd then x
  else
    let r := ldAux x.den 0 1 1 0 x.num (x.den : ℤ) (maxd : ℤ)
    let p0 := r.1
    let q0 := r.2.1
    let p1 := r.2.2.1
    let q1 := r.2.2.2
    let k := Int.fdiv ((maxd : ℤ) - q0) q1
    let bound1 : ℚ := ((p0 + k * p1 : ℤ) : ℚ) / ((q0 + k * q1 : ℤ) : ℚ)
    let bound2 : ℚ := (p1 : ℚ) / (q1 : ℚ)
    if |bound2 - x| ≤ |bound1 - x| then bound2 else bound1

/-- Left-pad a string with `'0'` up to length `n`. -/
def padZeros (s : String) (n : ℕ) : String :=
  ⟨List.replicate (n - s.data.length) '0' ++ s.data⟩

/-- `.rstrip("0")`: remove every trailing `'0'` character. -/
def stripTrailingZeros (s : String) : String :=
  ⟨(s.data.reverse.dropWhile (fun c => c = '0')).reverse⟩

/-- `"{:.{}f}".format(val, precision)`: fixed-point decimal with
`precision` digits after the point (none, and no point, when
`precision = 0`), rounding half to even, with a leading minus sign exactly
when the value is negative. -/
def formatFixed (q : ℚ) (precision : ℕ) : String :=
  let n := (npRound (q * (10 : ℚ) ^ precision)).natAbs
  let signStr := if q < 0 then "-" else ""
  let intPart := toString (n / 10 ^ precision)
  if precision = 0 then signStr ++ intPart
  else signStr ++ intPart ++ "." ++ padZeros (toString (n % 10 ^ precision)) precision

/-- A complex number: a pair of real components, modelled over `ℚ`. -/
structure Cplx where
  re : ℚ
  im : ℚ
  deriving DecidableEq

/-- The IEEE-754 double computed by `1/math.sqrt(2)`, exactly. -/
def invSqrt2 : ℚ := 1592262918131443 / 2251799813685248

/-- The IEEE-754 double computed by `1/math.sqrt(3)`, exactly. -/
def invSqrt3 : ℚ := 5200308914369309 / 9007199254740992

/-- The IEEE-754 double computed by `math.sqrt(2/3)`, exactly. -/
def sqrtTwoThirds : ℚ := 3677173697615391 / 4503599627370496

/-- The IEEE-754 double computed by `math.sqrt(3/4)`, exactly. -/
def sqrtThreeFourths : ℚ := 3900231685776981 / 4503599627370496

/-- The IEEE-754 double computed by `1/math.sqrt(8)`, exactly. -/
def invSqrt8 : ℚ := 1592262918131443 / 4503599627370496

/-- The `common_terms` dictionary of `num_to_latex`, in insertion order. -/
def common_terms : List (ℚ × String) :=
  [(invSqrt2, "\\tfrac\x7b1\x7d\x7b\\sqrt\x7b2\x7d\x7d"),
   (invSqrt3, "\\tfrac\x7b1\x7d\x7b\\sqrt\x7b3\x7d\x7d"),
   (sqrtTwoThirds, "\\sqrt\x7b\\tfrac\x7b2\x7d\x7b3\x7d\x7d"),
   (sqrtThreeFourths, "\\sqrt\x7b\\tfrac\x7b3\x7d\x7b4\x7d\x7d"),
   (invSqrt8, "\\tfrac\x7b1\x7d\x7b\\sqrt\x7b8\x7d\x7d")]

/-- The common-term lookup loop of `proc_value`: first table entry whose
magnitude is close to `|val|`, rendered with a minus sign when `val` is not
positive. -/
def lookupCommonTerm (val : ℚ) : Option String :=
  (common_terms.find? (fun p => decide (isclose |val| p.1))).map
    (fun p => if 0 < val then p.2 else "-" ++ p.2)

/-- `proc_value` from `num_to_latex` in `src/latex.py`: render one real
value as an integer, a recognized constant, a small signed fraction, or a
fixed-precision decimal with trailing zeros stripped — in that order. -/
def proc_value (val : ℚ) (precision : ℕ) : String :=
  let val_mod := pyMod1 val
  if isclose val_mod 0 ∨ isclose val_mod 1 then
    toString (npRound val)
  else
    match lookupCommonTerm val with
    | some s => s
    | none =>
      let frac := limit_denominator val 1000000
      let num := frac.num
      let denom := (frac.den : ℤ)
      if num + denom < 20 then
        if 0 < val then
          "\\tfrac\x7b" ++ toString num.natAbs ++ "\x7d\x7b" ++ toString denom.natAbs ++ "\x7d"
        else
          "-\\tfrac\x7b" ++ toString num.natAbs ++ "\x7d\x7b" ++ toString denom.natAbs ++ "\x7d"
      else
        stripTrailingZeros (formatFixed val precision)

/-- `num_to_latex` from `src/latex.py`: LaTeX representation of one complex
number, with common-factor extraction when the real and imaginary
magnitudes are close and nonzero. -/
def num_to_latex (num : Cplx) (precision : ℕ) : String :=
  let r0 := num.re
  let i0 := num.im
  let cf : Option ℚ :=
    if isclose |r0| |i0| ∧ ¬ isclose r0 0 then some |r0| else none
  let r := match cf with
    | some c => r0 / c
    | none => r0
  let i := match cf with
    | some c => i0 / c
    | none => i0
  let common_facstring : Option String := cf.map (fun c => proc_value c precision)
  let realstring := proc_value r precision
  let operation := if 0 < i then "+" else "-"
  let imagstring0 := if 0 < i then proc_value i precision else proc_value (-i) precision
  let imagstring := if imagstring0 = "1" then "" else imagstring0
  if imagstring = "0" then realstring
  else if realstring = "0" then
    if operation = "-" then "-" ++ imagstring ++ "i" else imagstring ++ "i"
  else
    match common_facstring with
    | some cfs => cfs ++ "(" ++ realstring ++ " " ++ operation ++ " " ++ imagstring ++ "i)"
    | none => realstring ++ " " ++ operation ++ " " ++ imagstring ++ "i"

/-- The string slice `s[:-n]` in Python: all but the last `n` characters
(the empty string when `s` has at most `n` characters). -/
def pyDropLast (s : String) (n : ℕ) : String :=
  ⟨s.data.take (s.data.length - n)⟩

/-- `vector_to_latex` from `src/latex.py`: append one scalar rendering plus
a row-break marker per element; for a nonempty vector cut the trailing four
characters (`" \\\\\n"`) and append a newline; close the envelope.  The
function opens with `"$$\n"` but never appends a closing `"$$\n"`. -/
def vector_to_latex (vector : List Cplx) (precision : ℕ) (pretext : String) : String :=
  let s0 := "$$\n" ++ pretext ++ "\\begin\x7bbmatrix\x7d\n"
  let s1 := vector.foldl
    (fun acc amplitude => acc ++ num_to_latex amplitude precision ++ " \\\\\n") s0
  let s2 := if vector.length ≠ 0 then pyDropLast s1 4 ++ "\n" else s1
  s2 ++ "\\end\x7bbmatrix\x7d\n"

/-- `matrix_to_latex` from `src/latex.py`: per row, append one scalar
rendering plus `" & "` per element, cut the trailing two characters
(`"& "`), and append the row-break marker `" \\\\\n"` — after every row,
the last included; close the envelope and the display delimiter. -/
def matrix_to_latex (matrix : List (List Cplx)) (precision : ℕ) (pretext : String) : String :=
  let s0 := "$$\n" ++ pretext ++ "\\begin\x7bbmatrix\x7d\n"
  let s1 := matrix.foldl
    (fun acc row =>
      pyDropLast
        (row.foldl (fun acc2 amplitude => acc2 ++ num_to_latex amplitude precision ++ " & ") acc)
        2 ++ " \\\\\n")
    s0
  s1 ++ "\\end\x7bbmatrix\x7d\n$$\n"

/-- A uniform numeric grid as produced by a successful `np.asarray`
coercion, indexed by its rank (`ndim`): a scalar (rank 0), a vector
(rank 1), a matrix (rank 2), or a higher-rank array (rank `n + 3`, whose
contents no code path inspects). -/
inductive Grid where
  | rank0 : Cplx → Grid
  | rank1 : List Cplx → Grid
  | rank2 : List (List Cplx) → Grid
  | rankHigher : ℕ → Grid
  deriving DecidableEq

/-- `array.ndim` of a coerced grid. -/
def gridRank : Grid → ℕ
  | .rank0 _ => 0
  | .rank1 _ => 1
  | .rank2 _ => 2
  | .rankHigher n => n + 3

/-- An arbitrary caller-supplied value, as `array_to_latex` sees it:
either it can be coerced by `np.asarray` followed by the `array + 1`
numeric probe into a numeric grid, or that coercion fails; for the failing
case we record the rank the value's shape would have, which the code never
reaches. -/
inductive PyInput where
  | ok : Grid → PyInput
  | bad : ℕ → PyInput
  deriving DecidableEq

/-- The `ValueError` message raised when the input cannot be interpreted as
numerical data. -/
def msgInvalidInput : String :=
  "array_to_latex can only convert numpy arrays containing numerical data, or types that can be converted to such arrays"

/-- The `ValueError` message raised when the coerced array has rank other
than 1 or 2. -/
def msgUnsupportedRank : String :=
  "array_to_latex can only convert numpy ndarrays of dimension 1 or 2"

/-- `array_to_latex` from `src/latex.py` with `display_output=False`:
first the numeric-coercion probe (its failure raises `ValueError` with
`msgInvalidInput`), then the dispatch on `ndim` (1 to the vector assembler,
2 to the matrix assembler, anything else raises `ValueError` with
`msgUnsupportedRank`).  An `Except.error` models a raised `ValueError`
carrying its message. -/
def array_to_latex (array : PyInput) (precision : ℕ) (pretext : String) :
    Except String String :=
  match array with
  | .bad _ => .error msgInvalidInput
  | .ok g =>
    match g with
    | .rank1 v => .ok (vector_to_latex v precision pretext)
    | .rank2 m => .ok (matrix_to_latex m precision pretext)
    | _ => .error msgUnsupportedRank

/-- Whether `pat` is an initial segment of `s`. -/
def matchesAt : List Char → List Char → Bool
  | [], _ => true
  | _ :: _, [] => false
  | a :: ps, b :: ss => a = b && matchesAt ps ss

/-- Number of positions of `s` at which the (nonempty) pattern `pat`
occurs, overlapping occurrences counted separately. -/
def countOcc (pat : List Char) : List Char → ℕ
  | [] => 0
  | b :: ss => (if matchesAt pat (b :: ss) then 1 else 0) + countOcc pat ss

/-- Body accumulated by `matrix_to_latex` between the (mangled) opening
token and the closing token when every row is empty: after `m + 1` rows it
is `m` copies of `" \"` followed by `" \\\n"` — each row's unconditional
two-character cut having eaten into the previous row's break marker (for
the first row, into the opening envelope). -/
def c9body : ℕ → String
  | 0 => " \\\\\n"
  | m + 1 => " \\" ++ c9body m

/-- Opening characters of the output on empty rows: everything up to and
including the mangled opening token (the envelope opener with its final
`"}\n"` eaten by the first row's cut). -/
def c9pre : List Char := "$$\n\\begin\x7bbmatrix".data

/-- Closing characters of the output on empty rows. -/
def c9suf : List Char := "\\end\x7bbmatrix\x7d\n$$\n".data

/-- The intact opening token followed by a newline, as a character list:
the pattern whose absence from the output the claim asserts. -/
def c9pat : List Char := "\\begin\x7bbmatrix\x7d\n".data

/-- Cutting exactly the appended suffix: `(s ++ t)[:-n] = s` when `t` has
`n` characters. -/
theorem pyDropLast_append (s t : String) (n : ℕ) (h : t.data.length = n) :
    pyDropLast (s ++ t) n = s := by
  apply String.ext
  show ((s.data ++ t.data).take ((s.data ++ t.data).length - n)) = s.data
  rw [List.length_append, h, Nat.add_sub_cancel]
  exact List.take_left s.data t.data

/-- Cutting two characters off a trailing `" & "` leaves the row with a
trailing space. -/
theorem pyDropLast_amp (s : String) : pyDropLast (s ++ " & ") 2 = s ++ " " := by
  apply String.ext
  show ((s.data ++ [' ', '&', ' ']).take ((s.data ++ [' ', '&', ' ']).length - 2))
      = s.data ++ [' ']
  rw [List.length_append]
  rw [show (s.data.length + [' ', '&', ' '].length - 2) = s.data.length + 1 from rfl]
  rw [List.take_append_eq_append_take, List.take_of_length_le (Nat.le_succ _),
    Nat.add_sub_cancel_left]
  rfl

/-- There is no decomposition `l = u ++ pat` when the last `pat.length`
characters of `l` differ from `pat`: the contrapositive of "`l` ends with
`pat`". -/
theorem no_suffix_of_drop_ne (l pat : List Char)
    (h : l.drop (l.length - pat.length) ≠ pat) : ¬ ∃ u, l = u ++ pat := by
  rintro ⟨u, rfl⟩
  apply h
  rw [List.length_append, Nat.add_sub_cancel, List.drop_left]

/-- Claim C1 (code-bug witness): on the rank-1 input `[1]` the assembler
opens with the display-math delimiter but never closes it — the output is
exactly `"$$\n\begin{bmatrix}\n1\n\end{bmatrix}\n"`, and no decomposition
of it ends in `"$$\n"`, refuting "the markup both begins and ends with the
display-math delimiter" for rank-1 containers.  (The rank-2 assembler does
append the closing delimiter; the defect is specific to
`vector_to_latex`.) -/
theorem claim_C1_missing_closing_delimiter :
    vector_to_latex [⟨1, 0⟩] 5 "" =
      "$$\n\\begin\x7bbmatrix\x7d\n1\n\\end\x7bbmatrix\x7d\n" ∧
    ¬ ∃ u : List Char, (vector_to_latex [⟨1, 0⟩] 5 "").data = u ++ "$$\n".data :=
  ⟨by with_unfolding_all decide,
   no_suffix_of_drop_ne _ _ (by with_unfolding_all decide)⟩

/-- Claim C3 (code-bug witness): the threshold test `num + denom < 20` of
`proc_value` uses the signed numerator, so `-18.5` (best approximation
`-37/2`, `-37 + 2 = -35 < 20`) is rendered as a fraction while its
negation `18.5` (`37 + 2 = 39 ≥ 20`) falls through to the decimal
fallback — refuting both the absolute-value threshold and the
decide-identically-under-negation property the claim states. -/
theorem claim_C3_threshold_asymmetry :
    proc_value (-37 / 2 : ℚ) 5 = "-\\tfrac\x7b37\x7d\x7b2\x7d" ∧
    proc_value (37 / 2 : ℚ) 5 = "18.5" := by
  constructor <;> with_unfolding_all decide

/-- Claim C4 (counterexample): at the input
`0.7071067811865476 + 0.7071067811865476j` (both components the exact
IEEE-754 double of the decimal literal) and precision 5, `num_to_latex`
does not return the claimed `\tfrac{1}{\sqrt{2}}(1 + 1i)`: the unit
imaginary coefficient is dropped, so the parenthesized pair is `(1 + i)`. -/
theorem claim_C4_counterexample :
    num_to_latex ⟨6369051672525773 / 9007199254740992,
      6369051672525773 / 9007199254740992⟩ 5 ≠
      "\\tfrac\x7b1\x7d\x7b\\sqrt\x7b2\x7d\x7d(1 + 1i)" := by
  with_unfolding_all decide

/-- Claim C4 (amended): at every precision, `num_to_latex` on
`0.7071067811865476 + 0.7071067811865476j` returns the common-factor form:
the constant token for `1/sqrt 2` followed by the parenthesized `(1 + i)`
with the unit imaginary coefficient dropped. -/
theorem claim_C4_amended (p : ℕ) :
    num_to_latex ⟨6369051672525773 / 9007199254740992,
      6369051672525773 / 9007199254740992⟩ p =
      "\\tfrac\x7b1\x7d\x7b\\sqrt\x7b2\x7d\x7d(1 + i)" := by
  with_unfolding_all rfl

/-- Claim C7: pure-imaginary inputs render as the signed imaginary term
alone with the unit coefficient dropped, and zero renders as `"0"`, at
every precision. -/
theorem claim_C7_pure_imaginary (p : ℕ) :
    num_to_latex ⟨0, 3⟩ p = "3i" ∧ num_to_latex ⟨0, 1⟩ p = "i" ∧
    num_to_latex ⟨0, -1⟩ p = "-i" ∧ num_to_latex ⟨0, 0⟩ p = "0" := by
  refine ⟨?_, ?_, ?_, ?_⟩ <;> with_unfolding_all rfl

/-- Claim C5: any coerced grid of rank other than 1 or 2 makes
`array_to_latex` raise the `ValueError` carrying the unsupported-rank
message, and any input that failed numeric coercion makes it raise the
`ValueError` carrying the invalid-input message; in both cases an error is
returned, never a markup string. -/
theorem claim_C5_errors (g : Grid) (r p : ℕ) (t : String) :
    (gridRank g ≠ 1 → gridRank g ≠ 2 →
      array_to_latex (.ok g) p t = .error msgUnsupportedRank) ∧
    array_to_latex (.bad r) p t = .error msgInvalidInput := by
  constructor
  · intro h1 h2
    cases g with
    | rank0 c => rfl
    | rank1 v => exact absurd rfl h1
    | rank2 m => exact absurd rfl h2
    | rankHigher n => rfl
  · rfl

/-- Claim C5 witness: the rank-0 grid, a rank-3 grid and a non-coercible
input each produce the corresponding error. -/
theorem claim_C5_errors_witness :
    array_to_latex (.ok (.rank0 ⟨0, 0⟩)) 5 "" = .error msgUnsupportedRank ∧
    array_to_latex (.ok (.rankHigher 0)) 5 "" = .error msgUnsupportedRank ∧
    array_to_latex (.bad 3) 5 "" = .error msgInvalidInput :=
  ⟨(claim_C5_errors (.rank0 ⟨0, 0⟩) 3 5 "").1 (by decide) (by decide),
   (claim_C5_errors (.rankHigher 0) 3 5 "").1 (by decide) (by decide),
   (claim_C5_errors (.rank0 ⟨0, 0⟩) 3 5 "").2⟩

/-- Claim C10: the numeric-coercion probe precedes the rank dispatch, so a
non-coercible input — whatever rank its shape would have, in particular an
unsupported one — always gets the invalid-input error, which differs from
the unsupported-rank error; and the unsupported-rank error can only arise
from an input that passed numeric coercion. -/
theorem claim_C10_coercion_before_rank (r p : ℕ) (t : String) (a : PyInput) :
    (r ≠ 1 ∧ r ≠ 2 → array_to_latex (.bad r) p t = .error msgInvalidInput) ∧
    msgInvalidInput ≠ msgUnsupportedRank ∧
    (array_to_latex a p t = .error msgUnsupportedRank → ∃ g, a = .ok g) := by
  refine ⟨fun _ => rfl, by decide, ?_⟩
  intro h
  cases a with
  | ok g => exact ⟨g, rfl⟩
  | bad r' =>
    simp only [array_to_latex] at h
    injection h with h'
    exact absurd h' (by decide)

/-- Claim C10 witness: a non-coercible input of would-be rank 3 raises the
invalid-input error, and the unsupported-rank error at a rank-0 grid
indeed came from an input that passed coercion. -/
theorem claim_C10_coercion_before_rank_witness :
    array_to_latex (.bad 3) 5 "" = .error msgInvalidInput ∧
    ∃ g, (PyInput.ok (Grid.rank0 ⟨0, 0⟩)) = PyInput.ok g :=
  ⟨(claim_C10_coercion_before_rank 3 5 "" (.ok (.rank0 ⟨0, 0⟩))).1 ⟨by decide, by decide⟩,
   (claim_C10_coercion_before_rank 3 5 "" (.ok (.rank0 ⟨0, 0⟩))).2.2 (by rfl)⟩

/-- Claim C8: the empty rank-1 container does not fail and produces the
well-formed empty-bodied envelope — the opening envelope token directly
followed by the closing one, with nothing (in particular no row-break
marker) in between. -/
theorem claim_C8_empty_vector (p : ℕ) (t : String) :
    array_to_latex (.ok (.rank1 [])) p t =
      .ok ("$$\n" ++ t ++ "\\begin\x7bbmatrix\x7d\n\\end\x7bbmatrix\x7d\n") ∧
    countOcc " \\\\\n".data (vector_to_latex [] p "").data = 0 := by
  constructor
  · rw [show ("\\begin\x7bbmatrix\x7d\n\\end\x7bbmatrix\x7d\n" : String) =
        "\\begin\x7bbmatrix\x7d\n" ++ "\\end\x7bbmatrix\x7d\n" from rfl,
      ← String.append_assoc]
    with_unfolding_all rfl
  · with_unfolding_all rfl

/-- Claim C2 (counterexample): on the 2-by-2 matrix `[[1,2],[3,4]]` the
output contains the row-break marker `" \\\\\n"` twice — once between the
rows and once trailing after the last row — not exactly once as claimed. -/
theorem claim_C2_counterexample :
    countOcc " \\\\\n".data
      (matrix_to_latex [[⟨1, 0⟩, ⟨2, 0⟩], [⟨3, 0⟩, ⟨4, 0⟩]] 5 "").data = 2 ∧
    countOcc " \\\\\n".data
      (matrix_to_latex [[⟨1, 0⟩, ⟨2, 0⟩], [⟨3, 0⟩, ⟨4, 0⟩]] 5 "").data ≠ 1 := by
  constructor <;> with_unfolding_all decide

/-- Claim C2 (amended): for every 2-by-2 container the assembled markup is
exactly the envelope enclosing the two rows, each row being the two scalar
renderings joined by a single `" & "` column separator and ending in a
trailing space (left over from cutting the trailing separator), and each
of the two rows — the last included — followed by one row-break marker
`" \\\\\n"`. -/
theorem claim_C2_amended (a b c d : Cplx) (p : ℕ) (t : String) :
    matrix_to_latex [[a, b], [c, d]] p t =
      "$$\n" ++ t ++ "\\begin\x7bbmatrix\x7d\n" ++
        num_to_latex a p ++ " & " ++ num_to_latex b p ++ " " ++ " \\\\\n" ++
        num_to_latex c p ++ " & " ++ num_to_latex d p ++ " " ++ " \\\\\n" ++
        "\\end\x7bbmatrix\x7d\n$$\n" := by
  show pyDropLast
      (pyDropLast ((((("$$\n" ++ t ++ "\\begin\x7bbmatrix\x7d\n") ++
        num_to_latex a p) ++ " & ") ++ num_to_latex b p) ++ " & ") 2 ++ " \\\\\n" ++
        num_to_latex c p ++ " & " ++ num_to_latex d p ++ " & ") 2 ++ " \\\\\n" ++
        "\\end\x7bbmatrix\x7d\n$$\n" = _
  rw [pyDropLast_amp, pyDropLast_amp]

/-- The integer branch condition of `proc_value` holds at `0` (and hence
at every exact integer, whose fractional part is `0`). -/
theorem isclose_zero_zero : isclose 0 0 := by
  unfold isclose
  norm_num

/-- Floor of an integer cast into `ℚ` is that integer. -/
theorem ratFloor_intCast (n : ℤ) : ratFloor (n : ℚ) = n := by
  unfold ratFloor
  rw [Rat.num_intCast, Rat.den_intCast]
  simp

/-- The fractional part of an exact integer is `0`. -/
theorem pyMod1_intCast (n : ℤ) : pyMod1 (n : ℚ) = 0 := by
  unfold pyMod1
  rw [ratFloor_intCast]
  exact sub_self _

/-- Rounding an exact integer returns it unchanged. -/
theorem npRound_intCast (n : ℤ) : npRound (n : ℚ) = n := by
  unfold npRound
  rw [ratFloor_intCast]
  simp only [sub_self]
  rw [if_pos (by norm_num)]

/-- On an exact integer, `proc_value` takes the integer branch and renders
the decimal string of the integer. -/
theorem proc_value_intCast (n : ℤ) (p : ℕ) : proc_value (n : ℚ) p = toString n := by
  simp only [proc_value]
  rw [pyMod1_intCast, npRound_intCast,
    if_pos (Or.inl isclose_zero_zero)]

/-- Rendering the real value `0` yields `"0"` at every precision. -/
theorem proc_value_zero (p : ℕ) : proc_value (0 : ℚ) p = "0" := by
  with_unfolding_all rfl

/-- Claim C6: on every exact integer input (imaginary part zero) and every
precision, `num_to_latex` returns exactly the decimal string of the
integer — no imaginary term, no common factor, correct sign for negative
integers. -/
theorem claim_C6_integers (n : ℤ) (p : ℕ) :
    num_to_latex ⟨(n : ℚ), 0⟩ p = toString n := by
  rcases eq_or_ne n 0 with rfl | hn
  · show num_to_latex ⟨((0 : ℤ) : ℚ), 0⟩ p = toString (0 : ℤ)
    with_unfolding_all rfl
  · have habs : (1 : ℚ) ≤ |(n : ℚ)| := by
      rw [← Int.cast_abs]
      exact_mod_cast Int.one_le_abs hn
    have hnc : ¬ (isclose |(n : ℚ)| |(0 : ℚ)| ∧ ¬ isclose (n : ℚ) 0) := by
      rintro ⟨h1, -⟩
      unfold isclose at h1
      rw [abs_zero, sub_zero, abs_abs] at h1
      norm_num at h1
      linarith
    simp only [num_to_latex]
    rw [if_neg hnc]
    norm_num [proc_value_zero, proc_value_intCast]
    intro h
    exact absurd h (by decide)

/-- One empty row transforms an accumulator ending in `c9body m` into one
ending in `c9body (m + 1)`: the two-character cut removes the final
backslash and newline, and a fresh row-break marker is appended. -/
theorem c9body_step (m : ℕ) (s : String) :
    pyDropLast (s ++ c9body m) 2 ++ " \\\\\n" = s ++ c9body (m + 1) := by
  induction m generalizing s with
  | zero =>
    have h : pyDropLast (s ++ " \\\\\n") 2 = s ++ " \\" := by
      apply String.ext
      show (s.data ++ [' ', '\\', '\\', '\n']).take
          ((s.data ++ [' ', '\\', '\\', '\n']).length - 2) = s.data ++ [' ', '\\']
      rw [List.length_append]
      rw [show s.data.length + [' ', '\\', '\\', '\n'].length - 2 = s.data.length + 2 from rfl]
      rw [List.take_append_eq_append_take, List.take_of_length_le (Nat.le_add_right _ _),
        Nat.add_sub_cancel_left]
      rfl
    rw [show c9body 0 = " \\\\\n" from rfl, h, String.append_assoc]
    rfl
  | succ m ih =>
    rw [show c9body (m + 1) = " \\" ++ c9body m from rfl, ← String.append_assoc,
      ih (s ++ " \\"), String.append_assoc]
    rfl

/-- Folding the row step of `matrix_to_latex` over `m` further empty rows
advances the body from `c9body j` to `c9body (j + m)`. -/
theorem c9fold (p : ℕ) (m : ℕ) :
    ∀ (j : ℕ) (s : String),
      List.foldl
        (fun acc row =>
          pyDropLast
            (List.foldl (fun acc2 amplitude => acc2 ++ num_to_latex amplitude p ++ " & ")
              acc row) 2 ++ " \\\\\n")
        (s ++ c9body j) (List.replicate m ([] : List Cplx)) = s ++ c9body (j + m) := by
  induction m with
  | zero => intro j s; rfl
  | succ m ih =>
    intro j s
    rw [List.replicate_succ, List.foldl_cons]
    simp only [List.foldl_nil]
    rw [c9body_step, ih (j + 1) s, Nat.add_assoc, Nat.add_comm 1 m]

/-- The empty-row body never contains the character `'g'`. -/
theorem c9body_count_g : ∀ m : ℕ, ((c9body m).data).count 'g' = 0 := by
  intro m
  induction m with
  | zero => rfl
  | succ m ih =>
    show ((" \\" ++ c9body m).data).count 'g' = 0
    rw [String.data_append, List.count_append, ih]
    rfl

/-- The empty-row body always starts with a space and a backslash. -/
theorem c9body_head (m : ℕ) : ∃ r : List Char, (c9body m).data = ' ' :: '\\' :: r := by
  cases m with
  | zero => exact ⟨['\\', '\n'], rfl⟩
  | succ m => exact ⟨(c9body m).data, rfl⟩

/-- Prefix counts never decrease when the prefix grows. -/
theorem count_take_mono (l : List Char) (j k : ℕ) :
    ((l.take j).count 'g') ≤ ((l.take (j + k)).count 'g') := by
  rw [List.take_add, List.count_append]
  exact Nat.le_add_right _ _

/-- Claim C9: on an `m x 0` input (at least one row, every row empty)
`matrix_to_latex` returns normally, but each row's unconditional
two-character cut eats into the opening envelope instead of a column
separator: the output is exactly the display opener followed by the
opening token shorn of its closing `"}\n"`, the mangled body and the
closing tokens — and in particular no decomposition of it contains the
intact opening token `"\begin{bmatrix}"` followed by a newline. -/
theorem claim_C9_empty_rows_malformed (m p : ℕ) :
    (∀ t : String, matrix_to_latex (List.replicate (m + 1) []) p t =
      ("$$\n" ++ t ++ "\\begin\x7bbmatrix") ++ c9body m ++ "\\end\x7bbmatrix\x7d\n$$\n") ∧
    ¬ ∃ u v : List Char,
        (matrix_to_latex (List.replicate (m + 1) []) p "").data = u ++ c9pat ++ v := by
  have hform : ∀ t : String, matrix_to_latex (List.replicate (m + 1) []) p t =
      ("$$\n" ++ t ++ "\\begin\x7bbmatrix") ++ c9body m ++ "\\end\x7bbmatrix\x7d\n$$\n" := by
    intro t
    simp only [matrix_to_latex]
    rw [List.replicate_succ, List.foldl_cons]
    simp only [List.foldl_nil]
    rw [show ("\\begin\x7bbmatrix\x7d\n" : String) = "\\begin\x7bbmatrix" ++ "\x7d\n" from rfl,
      ← String.append_assoc, pyDropLast_append _ "\x7d\n" 2 rfl]
    exact congrArg (fun x => x ++ "\\end\x7bbmatrix\x7d\n$$\n")
      ((c9fold p m 0 _).trans (by rw [Nat.zero_add]))
  refine ⟨hform, ?_⟩
  rintro ⟨u, v, hyp⟩
  have hdata : (matrix_to_latex (List.replicate (m + 1) []) p "").data
      = c9pre ++ ((c9body m).data ++ c9suf) := by
    rw [hform ""]
    simp only [String.data_append, List.append_assoc]
    rfl
  rw [hdata] at hyp
  have hcount := congrArg (List.count 'g') hyp
  simp only [List.count_append] at hcount
  rw [c9body_count_g m, show c9pre.count 'g' = 1 from by decide,
    show c9suf.count 'g' = 0 from by decide,
    show c9pat.count 'g' = 1 from by decide] at hcount
  have hu0 : u.count 'g' = 0 := by omega
  have s4 : ((u ++ c9pat ++ v).take (u.length + 4)).count 'g' = 1 := by
    rw [List.take_append_eq_append_take, List.length_append,
      show c9pat.length = 16 from by decide,
      show u.length + 4 - (u.length + 16) = 0 from by omega,
      List.take_zero, List.append_nil,
      List.take_append_eq_append_take,
      List.take_of_length_le (Nat.le_add_right _ _),
      Nat.add_sub_cancel_left,
      List.count_append, hu0,
      show (c9pat.take 4).count 'g' = 1 from by decide]
  have s3 : ((u ++ c9pat ++ v).take (u.length + 3)).count 'g' = 0 := by
    rw [List.take_append_eq_append_take, List.length_append,
      show c9pat.length = 16 from by decide,
      show u.length + 3 - (u.length + 16) = 0 from by omega,
      List.take_zero, List.append_nil,
      List.take_append_eq_append_take,
      List.take_of_length_le (Nat.le_add_right _ _),
      Nat.add_sub_cancel_left,
      List.count_append, hu0,
      show (c9pat.take 3).count 'g' = 0 from by decide]
  have t7 : ((u ++ c9pat ++ v).take 7).count 'g' = 1 := by
    rw [← hyp, List.take_append_eq_append_take, show 7 - c9pre.length = 0 from by decide,
      List.take_zero, List.append_nil]
    decide
  have t6 : ((u ++ c9pat ++ v).take 6).count 'g' = 0 := by
    rw [← hyp, List.take_append_eq_append_take, show 6 - c9pre.length = 0 from by decide,
      List.take_zero, List.append_nil]
    decide
  have hk : u.length = 3 := by
    by_contra hne
    rcases Nat.lt_or_ge u.length 3 with hlt | hge
    · have hmono := count_take_mono (u ++ c9pat ++ v) (u.length + 4) (6 - (u.length + 4))
      rw [show u.length + 4 + (6 - (u.length + 4)) = 6 from by omega, s4, t6] at hmono
      omega
    · have h4 : 4 ≤ u.length := by omega
      have hmono := count_take_mono (u ++ c9pat ++ v) 7 (u.length + 3 - 7)
      rw [show 7 + (u.length + 3 - 7) = u.length + 3 from by omega, t7, s3] at hmono
      omega
  have hd1 : (u ++ c9pat ++ v).drop 3 = c9pat ++ v := by
    rw [List.drop_append_eq_append_drop, List.drop_left' hk,
      List.length_append, hk, show c9pat.length = 16 from by decide,
      show 3 - (3 + 16) = 0 from rfl, List.drop_zero]
  have hd2 : (c9pre ++ ((c9body m).data ++ c9suf)).drop 3
      = c9pre.drop 3 ++ ((c9body m).data ++ c9suf) := by
    rw [List.drop_append_eq_append_drop, show 3 - c9pre.length = 0 from by decide,
      List.drop_zero]
  have hPv : c9pat ++ v = c9pre.drop 3 ++ ((c9body m).data ++ c9suf) := by
    rw [← hd1, ← hyp, hd2]
  obtain ⟨r, hr⟩ := c9body_head m
  have hL : (c9pat ++ v).take 16 = c9pat := by
    rw [List.take_append_eq_append_take, show 16 - c9pat.length = 0 from by decide,
      List.take_zero, List.append_nil]
    exact List.take_of_length_le (by decide)
  have hR : (c9pre.drop 3 ++ ((c9body m).data ++ c9suf)).take 16
      = c9pre.drop 3 ++ [' ', '\\'] := by
    rw [hr, List.cons_append, List.cons_append, List.take_append_eq_append_take,
      List.take_of_length_le (by decide : (c9pre.drop 3).length ≤ 16),
      show 16 - (c9pre.drop 3).length = 2 from by decide]
    rfl
  have hfinal : c9pat = c9pre.drop 3 ++ [' ', '\\'] := by
    rw [← hL, hPv, hR]
  exact absurd hfinal (by decide)
